import Mathlib

/-!
Verification development for the audio-to-motion synthesis core
(feature segmentation, overflow resolvers, action synthesis, speed
estimation, auto-tuning and funscript export).

Numbers are modelled as rationals: the JavaScript source only performs
field arithmetic, comparisons, Math.floor/Math.round/Math.abs/Math.min/
Math.max on them, all of which are exact on the rationals for the inputs
considered.  JS Math.round rounds half-up, which is floor (x + 1/2).
-/

namespace PyDancer

/-- One output keyframe.  The JS object is { at, pos }; the field "at" is
renamed to at_ because at is reserved. -/
structure Action where
  at_ : ℚ
  pos : ℚ
deriving DecidableEq

/-- JS Math.round for finite inputs: round half toward positive infinity. -/
def jround (x : ℚ) : ℤ := ⌊x + 1 / 2⌋

/-- normalize(data) from utils: min-max normalization, a constant array maps
to all 0.5, an empty array to itself. -/
def normalize (data : List ℚ) : List ℚ :=
  match data with
  | [] => []
  | x :: xs =>
    let fmin := xs.foldl min x
    let fmax := xs.foldl max x
    if fmax = fmin then (x :: xs).map (fun _ => (1 : ℚ) / 2)
    else (x :: xs).map (fun v => (v - fmin) / (fmax - fmin))

/-- default_peak(pos, at) from utils (the Crop overflow resolver):
one action with position Math.min(Math.max(0, pos), 100).  Note the source
does not round here. -/
def default_peak (pos at_ : ℚ) : List Action :=
  [⟨at_, min (max 0 pos) 100⟩]

/-- int_at(pos, at, last_pos, last_at, limit) from utils: linear
interpolation of the boundary-crossing time, with a pass-through fallback
when both distances are zero. -/
def int_at (pos at_ last_pos last_at limit : ℚ) : ℚ :=
  let before_ratio := |last_pos - limit|
  let after_ratio := |pos - limit|
  if after_ratio + before_ratio = 0 then at_
  else (before_ratio * at_ + after_ratio * last_at) / (after_ratio + before_ratio)

/-- create_peak_bounce(pos, at, last_pos, last_at) from utils.  Every push
goes through the local action helper, which applies Math.round to the
position. -/
def create_peak_bounce (pos at_ last_pos last_at : ℚ) : List Action :=
  let first :=
    if last_pos < 0 then
      [⟨int_at pos at_ last_pos last_at 0, (jround 0 : ℚ)⟩]
    else if 100 < last_pos then
      [⟨int_at pos at_ last_pos last_at 100, (jround 100 : ℚ)⟩]
    else []
  let rest :=
    if 100 < pos then
      [⟨int_at pos at_ last_pos last_at 100, (jround 100 : ℚ)⟩,
       ⟨at_, (jround (200 - pos) : ℚ)⟩]
    else if pos < 0 then
      [⟨int_at pos at_ last_pos last_at 0, (jround 0 : ℚ)⟩,
       ⟨at_, (jround (-pos) : ℚ)⟩]
    else [⟨at_, (jround pos : ℚ)⟩]
  first ++ rest

/-- create_peak_fold(pos, at, last_pos, last_at) from utils.  Every push
goes through the local action helper, which applies Math.round to the
position. -/
def create_peak_fold (pos at_ last_pos last_at : ℚ) : List Action :=
  let int_att := (last_at + at_) / 2
  let travel := |last_pos - pos| / 2
  let first :=
    if last_pos < 0 then [⟨int_att, (jround (last_pos + travel) : ℚ)⟩]
    else if 100 < last_pos then [⟨int_att, (jround (last_pos - travel) : ℚ)⟩]
    else []
  let rest :=
    if pos < 0 then
      [⟨int_att, (jround (last_pos - travel) : ℚ)⟩, ⟨at_, (jround last_pos : ℚ)⟩]
    else if 100 < pos then
      [⟨int_att, (jround (last_pos + travel) : ℚ)⟩, ⟨at_, (jround last_pos : ℚ)⟩]
    else [⟨at_, (jround pos : ℚ)⟩]
  first ++ rest

/-- The peaks dispatch table [default_peak, create_peak_bounce,
create_peak_fold], indexed by Math.floor(overflow).  An out-of-range index
is undefined in JS and would throw; it is unreachable for the modes
considered here and modelled as the empty list. -/
def peaks (idx : ℤ) (pos at_ last_pos last_at : ℚ) : List Action :=
  if idx = 0 then default_peak pos at_
  else if idx = 1 then create_peak_bounce pos at_ last_pos last_at
  else if idx = 2 then create_peak_fold pos at_ last_pos last_at
  else []

/-- The fields of the object handed to create_actions_barrier (the input
spread plus the offsets and energy_to_pos arrays added by
create_actions). -/
structure BarrierData where
  energy_to_pos : List ℚ
  beats : List ℚ
  offsets : List ℚ
deriving DecidableEq

/-- The loop body of create_actions_barrier: for each frame, an "up"
resolution at the midpoint time followed by a "down" resolution at the
beat time, carrying (last_pos, last_at).  The carried position is the raw
unresolved target, exactly as in the source (last_pos = pos). -/
def create_actions_barrier_go (overflow : ℚ) :
    List (ℚ × ℚ × ℚ) → ℚ → ℚ → List Action
  | [], _, _ => []
  | (unoffset_pos, at_, offset) :: rest, last_pos, last_at =>
    let intermediate_at := (at_ + last_at) / 2
    let pos_up := unoffset_pos + offset
    let up := peaks ⌊overflow⌋ pos_up intermediate_at last_pos last_at
    let pos_down := -unoffset_pos + offset
    let down := peaks ⌊overflow⌋ pos_down at_ pos_up intermediate_at
    up ++ down ++ create_actions_barrier_go overflow rest pos_down at_

/-- create_actions_barrier(data, start_time = 0, overflow = 0) from utils.
num_frames is the minimum of the three array lengths, which List.zip
produces automatically.  The accumulator starts at position 50 and time
start_time. -/
def create_actions_barrier (data : BarrierData) (start_time overflow : ℚ) :
    List Action :=
  create_actions_barrier_go overflow
    (List.zip data.energy_to_pos (List.zip data.beats data.offsets))
    50 start_time

/-- The AudioFeatures record produced by the worker: pitch and energy are
Option to model the JS undefined-field checks (an empty JS array is truthy
and passes those checks, so only a missing field maps to none). -/
structure AudioFeatures where
  at_ : ℚ
  beats : List ℚ
  pitch : Option (List ℚ)
  energy : Option (List ℚ)
deriving DecidableEq

/-- create_actions(data, energy_multiplier = 1, pitch_range = 100,
overflow = 0, amplitude_centering = 0, center_offset = 0) from utils.
The offsets array mirrors normalized_pitch.slice(0, normalized_energy
.length).map((p, i) => ...) via zipWith.  The final call in the source is
create_actions_barrier(processedData, overflow): overflow is passed
positionally as start_time and the barrier overflow parameter keeps its JS
default 0, which is reproduced literally here. -/
def create_actions (data : AudioFeatures)
    (energy_multiplier pitch_range overflow amplitude_centering center_offset : ℚ) :
    List Action :=
  match data.pitch, data.energy with
  | some dp, some de =>
    let normalized_pitch := normalize dp
    let normalized_energy := normalize de
    let pitch_bias := (100 - pitch_range) / 2
    let offsets :=
      List.zipWith
        (fun p e =>
          p * pitch_range + pitch_bias + amplitude_centering * e + center_offset)
        (normalized_pitch.take normalized_energy.length) normalized_energy
    let energy_to_pos := normalized_energy.map (fun e => e * energy_multiplier * 50)
    create_actions_barrier ⟨energy_to_pos, data.beats, offsets⟩ overflow 0
  | _, _ => []

/-- _speed(A, B, smax = 400) from utils: zero on zero elapsed time,
otherwise |dpos| / dt / smax (dt signed, as in the source). -/
def _speed (A B : Action) (smax : ℚ) : ℚ :=
  if B.at_ - A.at_ = 0 then 0
  else |B.pos - A.pos| / (B.at_ - A.at_) / smax

/-- speed(A, B, smax = 400) from utils: _speed clamped to [0, 1]. -/
def speed (A B : Action) (smax : ℚ) : ℚ :=
  max 0 (min (_speed A B smax) 1)

/-- The property that a list of actions has non-decreasing timestamps. -/
def at_sorted : List Action → Bool
  | [] => true
  | [_] => true
  | a :: b :: rest => decide (a.at_ ≤ b.at_) && at_sorted (b :: rest)

/-- The metadata block of the export document.  All fields are the fixed
literals from the source except duration. -/
structure FunMetadata where
  creator : String
  description : String
  duration : ℤ
  license : String
  notes : String
  performers : List String
  script_url : String
  tags : List String
  title : String
  type : String
  video_url : String
deriving DecidableEq

/-- An exported action: integer milliseconds and integer position. -/
structure FunscriptAction where
  at_ : ℤ
  pos : ℤ
deriving DecidableEq

/-- The export document produced by dumpFunscript (the JSON.stringify
layer is pure serialization of this value and is not modelled). -/
structure Funscript where
  actions : List FunscriptAction
  inverted : Bool
  metadata : FunMetadata
  range : ℕ
  version : String
deriving DecidableEq

/-- dumpFunscript(data) from utils: the empty-input document, or the
mapped actions (seconds times 1000, Math.round on both fields) with
duration the last action's at in milliseconds. -/
def dumpFunscript (data : List Action) : Funscript :=
  if data.isEmpty then
    ⟨[], false,
     ⟨"PythonDancerJS", "", 0, "None", "", [], "", [], "", "basic", ""⟩,
     100, "1.0"⟩
  else
    let actions := data.map (fun a => FunscriptAction.mk (jround (a.at_ * 1000)) (jround a.pos))
    let duration := match actions.getLast? with | some a => a.at_ | none => 0
    ⟨actions, false,
     ⟨"PythonDancerJS", "", duration, "None", "", [], "", [], "", "basic", ""⟩,
     100, "1.0"⟩

/-- cmean from autoval: the mean position over create_actions with
energy_multiplier 0, none modelling the JS Infinity sentinel returned for
pitch_range 0 or an empty action list. -/
def cmean (data : AudioFeatures) (pitch_range_arr : List ℚ) : Option ℚ :=
  let pitch_range := pitch_range_arr.headI
  if pitch_range = 0 then none
  else
    let result := create_actions data 0 pitch_range 0 0 0
    let Y := result.map Action.pos
    if Y = [] then none else some (Y.sum / (Y.length : ℚ))

/-- pdst from autoval: distance of cmean([p]) to the pitch target; an
infinite cmean propagates (|Infinity - b| is Infinity in JS). -/
def pdst (data : AudioFeatures) (tpi : ℚ) (p_arr : List ℚ) : Option ℚ :=
  (cmean data [p_arr.headI]).map (fun a => |a - tpi|)

/-- The consecutive-pair speeds of an action list at a given smax. -/
def pair_speeds (l : List Action) (smax : ℚ) : List ℚ :=
  List.zipWith (fun a b => speed a b smax) l l.tail

/-- cemean from autoval: |mean speed at smax 1 - target_speed|, with none
for a negative multiplier or fewer than two actions. -/
def cemean (data : AudioFeatures) (pres target_speed : ℚ)
    (energy_multiplier_arr : List ℚ) : Option ℚ :=
  let energy_multiplier := energy_multiplier_arr.headI
  if energy_multiplier < 0 then none
  else
    let result := create_actions data energy_multiplier pres 0 0 0
    if result.length < 2 then none
    else
      let speeds := pair_speeds result 1
      if speeds = [] then none
      else some |speeds.sum / (speeds.length : ℚ) - target_speed|

/-- cemeanv2 from autoval: |fraction of pair speeds (smax 400) above
target_speed - v2above|. -/
def cemeanv2 (data : AudioFeatures) (pres target_speed v2above : ℚ)
    (energy_multiplier_arr : List ℚ) : Option ℚ :=
  let energy_multiplier := energy_multiplier_arr.headI
  if energy_multiplier < 0 then none
  else
    let result := create_actions data energy_multiplier pres 0 0 0
    if result.length < 2 then none
    else
      let speeds := pair_speeds result 400
      if speeds = [] then none
      else
        let aboveTarget := (speeds.filter (fun s => target_speed < s)).length
        some |(aboveTarget : ℚ) / (speeds.length : ℚ) - v2above|

/-- celen from autoval: |mean absolute position delta / 100 - v2above|. -/
def celen (data : AudioFeatures) (pres v2above : ℚ)
    (energy_multiplier_arr : List ℚ) : Option ℚ :=
  let energy_multiplier := energy_multiplier_arr.headI
  if energy_multiplier < 0 then none
  else
    let result := create_actions data energy_multiplier pres 0 0 0
    if result.length < 2 then none
    else
      let distances := List.zipWith (fun a b => |a.pos - b.pos|) result result.tail
      if distances = [] then none
      else some |distances.sum / ((distances.length : ℚ) * 100) - v2above|

/-- autoval(data, tpi = 15, target_speed = 300, v2above = 0.6, opt = 1)
from the tuner module.  The third-party nelderMead minimizer is an
external numerical primitive, abstracted as the parameter nm (the source
wraps each call in try/catch with defaults 100 and 10; nm is total here,
so the catch arms are dead).  The guard mirrors the source's early return:
missing (none) or empty pitch or energy arrays yield [0, 0]; the source's
data.length === 0 disjunct is always false on an object input and is
dropped.  opt indexes [cemean, cemeanv2, celen]; an out-of-range opt
throws in JS and is modelled by the last arm (unused by the claims). -/
def autoval (nm : (List ℚ → Option ℚ) → List ℚ → List ℚ)
    (data : AudioFeatures) (tpi target_speed v2above : ℚ) (opt : ℕ) : List ℚ :=
  if data.pitch = none ∨ data.pitch = some [] ∨ data.energy = none ∨ data.energy = some [] then
    [0, 0]
  else
    let pres := min 200 (max (-200) ((nm (pdst data tpi) [100]).headI))
    let objective :=
      match opt with
      | 0 => cemean data pres target_speed
      | 1 => cemeanv2 data pres target_speed v2above
      | _ => celen data pres v2above
    let eres := min 100 (max 0 ((nm objective [10]).headI))
    [pres, eres]

/-- The splits loop of the worker's onmessage handler: walking frame-times
against the unconsumed beat-times, pushing the current frame index when a
frame-time exceeds the next beat-time, except on the first consumption
(the source's last > 0 test, carried here as the consumed flag).  The loop
breaks when all beats are consumed. -/
def splitsLoop : List ℚ → List ℚ → ℕ → Bool → List ℕ
  | _, [], _, _ => []
  | [], _ :: _, _, _ => []
  | f :: fs, b :: bs, k, consumed =>
    if b < f then
      (if consumed then [k] else []) ++ splitsLoop fs bs (k + 1) true
    else
      splitsLoop fs (b :: bs) (k + 1) consumed

/-- The number of beats consumed by the splits loop. -/
def consumedLoop : List ℚ → List ℚ → ℕ
  | _, [] => 0
  | [], _ :: _ => 0
  | f :: fs, b :: bs =>
    if b < f then consumedLoop fs bs + 1 else consumedLoop fs (b :: bs)

/-- The inner summation loop of the worker: sum of vals[j] for j in
[s, e). -/
def sumRange (vals : List ℚ) (s e : ℕ) : ℚ :=
  ∑ j in Finset.Ico s e, vals.getD j 0

/-- The (start, end) index pairs walked by the aggregation loop: the
source array is [0, ...inner, -1] and the sentinel -1 maps to the
truncated array length. -/
def segPairs (inner : List ℕ) (len : ℕ) : List (ℕ × ℕ) :=
  List.zip (0 :: inner) (inner ++ [len])

/-- The per-segment sums (fpitch / frms in the worker) of vals for the
segmentation induced by frames and beats. -/
def segmentSums (vals frames beats : List ℚ) : List ℚ :=
  (segPairs (splitsLoop frames beats 0 false) vals.length).map
    (fun p => sumRange vals p.1 p.2)

/-- Evaluation rule for jround: the floor of x + 1/2 is the integer z
whenever z ≤ x + 1/2 < z + 1. -/
theorem jround_eval {x : ℚ} {z : ℤ} (h1 : (z : ℚ) ≤ x + 1 / 2)
    (h2 : x + 1 / 2 < z + 1) : jround x = z := by
  unfold jround
  exact Int.floor_eq_iff.mpr ⟨h1, h2⟩

theorem jround_50 : jround 50 = 50 := jround_eval (by norm_num) (by norm_num)

theorem jround_100 : jround 100 = 100 := jround_eval (by norm_num) (by norm_num)

theorem jround_neg50 : jround (-50) = -50 := jround_eval (by norm_num) (by norm_num)

theorem jround_neg30 : jround (-30) = -30 := jround_eval (by norm_num) (by norm_num)

theorem jround_neg70 : jround (-70) = -70 := jround_eval (by norm_num) (by norm_num)

theorem jround_500 : jround 500 = 500 := jround_eval (by norm_num) (by norm_num)

theorem jround_fifty_point_two : jround (251 / 5) = 50 :=
  jround_eval (by norm_num) (by norm_num)

/-- Claim C1: the claim says the overflowMode argument of the synthesis
call selects the resolver (0 Crop, 1 Bounce, 2 Fold).  In the source,
create_actions passes overflow positionally into create_actions_barrier's
start_time slot and the barrier's own overflow parameter keeps its default
0, so every synthesis call resolves with Crop.  On the input below the
out-of-range target 250 at time 3/2 is clamped to the single action
(3/2, 100) for both overflowMode 1 and 2; Bounce at the corresponding
state would emit the reflection pair (6/5, 100), (3/2, -50), whose second
action never occurs in the output. -/
theorem c1_overflow_mode_ignored :
    create_actions ⟨2, [1, 2], some [0, 1], some [0, 1]⟩ 3 100 1 0 0 =
      [⟨1, 0⟩, ⟨1, 0⟩, ⟨3/2, 100⟩, ⟨2, 0⟩] ∧
    create_actions ⟨2, [1, 2], some [0, 1], some [0, 1]⟩ 3 100 2 0 0 =
      [⟨3/2, 0⟩, ⟨1, 0⟩, ⟨3/2, 100⟩, ⟨2, 0⟩] ∧
    create_peak_bounce 250 (3/2) 0 1 = [⟨6/5, 100⟩, ⟨3/2, -50⟩] ∧
    Action.mk (3/2) (-50) ∉ create_actions ⟨2, [1, 2], some [0, 1], some [0, 1]⟩ 3 100 1 0 0 := by
  norm_num [create_actions.eq_def, create_actions_barrier, create_actions_barrier_go, peaks,
    default_peak, create_peak_bounce, int_at, normalize.eq_def, Action.mk.injEq,
    min_def, max_def, abs_eq_max_neg, jround_100, jround_neg50]

/-- Claim C2: the claim says the emitted at timestamps are non-decreasing
for every parameter combination.  Because create_actions passes overflow
as the barrier's start_time, with overflowMode 1 the accumulator starts at
time 1; a first beat at 1/2 then yields the actions (3/4, 50), (1/2, 50),
whose timestamps decrease. -/
theorem c2_at_not_monotone :
    create_actions ⟨1, [1/2], some [0], some [0]⟩ 0 100 1 0 0 =
      [⟨3/4, 50⟩, ⟨1/2, 50⟩] ∧
    at_sorted (create_actions ⟨1, [1/2], some [0], some [0]⟩ 0 100 1 0 0) = false := by
  norm_num [create_actions.eq_def, create_actions_barrier, create_actions_barrier_go, peaks,
    default_peak, normalize.eq_def, Action.mk.injEq, min_def, max_def, at_sorted]

/-- Claim C3: the claim says the segment fold starts from
(lastPos, lastAt) = (50, 0) for a synthesis call, independently of the
overflow mode.  In the source the overflow argument lands in the
start_time slot, so with overflowMode 2 the accumulator starts at time 2:
for a single beat at 10 the first (midpoint) action is at (10 + 2) / 2 = 6
instead of (10 + 0) / 2 = 5. -/
theorem c3_start_time_is_overflow :
    create_actions ⟨1, [10], some [0], some [0]⟩ 0 100 2 0 0 =
      [⟨6, 50⟩, ⟨10, 50⟩] ∧
    (6 : ℚ) = (10 + 2) / 2 ∧ (6 : ℚ) ≠ (10 + 0) / 2 := by
  norm_num [create_actions.eq_def, create_actions_barrier, create_actions_barrier_go, peaks,
    default_peak, normalize.eq_def, Action.mk.injEq, min_def, max_def]

/-- Claim C4 counterexample: the claim says Crop emits
round(clamp(pos, 0, 100)), an integer.  default_peak at the in-range
target 101/2 emits position 101/2 itself, which is no integer: the source
has no Math.round in default_peak. -/
theorem c4_counterexample :
    default_peak (101/2) 1 = [⟨1, 101/2⟩] ∧ ¬ ∃ z : ℤ, ((101 : ℚ)/2) = z := by
  constructor
  · norm_num [default_peak, min_def, max_def]
  · rintro ⟨z, hz⟩
    have h2 : (101 : ℚ) = 2 * z := by linarith
    have h3 : (101 : ℤ) = 2 * z := by exact_mod_cast h2
    omega

/-- Claim C5 counterexample: the claim says Fold never emits 3 actions.
With last_pos = -50 out of bounds and pos = -10 also out of bounds, the
source emits the correction (1, -30) and then the folded pair (1, -70),
(2, -50): three actions. -/
theorem c5_counterexample :
    ¬ (create_peak_fold (-10) 2 (-50) 0).length ≤ 2 ∧
    create_peak_fold (-10) 2 (-50) 0 = [⟨1, -30⟩, ⟨1, -70⟩, ⟨2, -50⟩] := by
  norm_num [create_peak_fold, abs_eq_max_neg, min_def, max_def, Action.mk.injEq,
    jround_neg30, jround_neg70, jround_neg50]

/-- Claim C6 counterexample: the claim says a boundary opens for every
consumed beat including the first.  For frame-times 1/2, 3/2, 5/2 and
beat-times 1, 2 both beats are consumed (frame 3/2 exceeds beat 1 at
index 1, frame 5/2 exceeds beat 2 at index 2) but the source's last > 0
test suppresses the first boundary, producing [2] rather than [1, 2]. -/
theorem c6_counterexample :
    splitsLoop [1/2, 3/2, 5/2] [1, 2] 0 false = [2] ∧
    consumedLoop [1/2, 3/2, 5/2] [1, 2] = 2 ∧
    splitsLoop [1/2, 3/2, 5/2] [1, 2] 0 false ≠ [1, 2] := by
  norm_num [splitsLoop, consumedLoop]

/-- Claim C7 counterexample: the claim says a degenerate input returns the
default pair (100, 10).  With zero segments (empty pitch and energy
arrays) autoval's early return yields [0, 0], whatever the external
minimizer does, and [0, 0] is not [100, 10]. -/
theorem c7_counterexample :
    autoval (fun _ x => x) ⟨0, [], some [], some []⟩ 15 300 (3/5) 1 = [0, 0] ∧
    [(0 : ℚ), 0] ≠ [100, 10] := by
  norm_num [autoval]

/-- Claim C9: dumpFunscript([]) is the fixed document with empty actions
and duration 0, and dumpFunscript([{at: 0.5, pos: 50.2}]) has exactly the
action {at: 500, pos: 50} (rounded milliseconds and rounded position) with
duration 500. -/
theorem c9_dumpFunscript :
    dumpFunscript [] =
      ⟨[], false, ⟨"PythonDancerJS", "", 0, "None", "", [], "", [], "", "basic", ""⟩,
       100, "1.0"⟩ ∧
    dumpFunscript [⟨1/2, 251/5⟩] =
      ⟨[⟨500, 50⟩], false,
       ⟨"PythonDancerJS", "", 500, "None", "", [], "", [], "", "basic", ""⟩,
       100, "1.0"⟩ := by
  norm_num [dumpFunscript, Funscript.mk.injEq, FunMetadata.mk.injEq,
    FunscriptAction.mk.injEq, jround_500, jround_fifty_point_two]

/-- Claim C8: for all actions A, B and smax > 0, speed(A, B, smax) lies in
[0, 1], and equal timestamps give exactly 0 (zero elapsed time is handled
before the division, so no division by zero occurs). -/
theorem c8_speed_bounds (A B : Action) (smax : ℚ) (h : 0 < smax) :
    0 ≤ speed A B smax ∧ speed A B smax ≤ 1 ∧
    (B.at_ = A.at_ → speed A B smax = 0) := by
  refine ⟨le_max_left _ _, max_le (by norm_num) (min_le_right _ _), fun hba => ?_⟩
  have hz : _speed A B smax = 0 := by simp [_speed, hba]
  simp [speed, hz]

/-- Claim C8 witness: the bounds instantiated at A = (1, 10), B = (1, 20),
smax = 400. -/
theorem c8_witness :
    (0 : ℚ) < 400 ∧
    (0 ≤ speed ⟨1, 10⟩ ⟨1, 20⟩ 400 ∧ speed ⟨1, 10⟩ ⟨1, 20⟩ 400 ≤ 1 ∧
      ((Action.mk 1 20).at_ = (Action.mk 1 10).at_ → speed ⟨1, 10⟩ ⟨1, 20⟩ 400 = 0)) :=
  ⟨by norm_num, c8_speed_bounds ⟨1, 10⟩ ⟨1, 20⟩ 400 (by norm_num)⟩

/-- Claim C7 amended: with zero segments (missing or empty pitch or energy
arrays) the auto-tune call takes the early return and yields (0, 0) with
no crash, independently of the external minimizer nm. -/
theorem c7_degenerate_returns_zero
    (nm : (List ℚ → Option ℚ) → List ℚ → List ℚ) (data : AudioFeatures)
    (tpi target_speed v2above : ℚ) (opt : ℕ)
    (h : data.pitch = none ∨ data.pitch = some [] ∨
         data.energy = none ∨ data.energy = some []) :
    autoval nm data tpi target_speed v2above opt = [0, 0] := by
  unfold autoval
  rw [if_pos h]

/-- Claim C7 witness: the degenerate return instantiated at empty pitch
and energy arrays and the identity in place of the minimizer. -/
theorem c7_witness :
    ((AudioFeatures.mk 0 [] (some []) (some [])).pitch = none ∨
     (AudioFeatures.mk 0 [] (some []) (some [])).pitch = some [] ∨
     (AudioFeatures.mk 0 [] (some []) (some [])).energy = none ∨
     (AudioFeatures.mk 0 [] (some []) (some [])).energy = some []) ∧
    autoval (fun _ x => x) ⟨0, [], some [], some []⟩ 0 0 0 0 = [0, 0] :=
  ⟨Or.inr (Or.inl rfl),
   c7_degenerate_returns_zero (fun _ x => x) ⟨0, [], some [], some []⟩ 0 0 0 0
     (Or.inr (Or.inl rfl))⟩

/-- Claim C4 amended: Crop emits exactly one action whose position is the
clamp of pos to [0, 100] with no rounding, while the Bounce and Fold
variants round every emitted position to an integer at emission time. -/
theorem c4_crop_emits_unrounded_clamp (pos at_ last_pos last_at : ℚ) :
    default_peak pos at_ =
      [⟨at_, if pos < 0 then 0 else if 100 < pos then 100 else pos⟩] ∧
    (∀ a ∈ create_peak_bounce pos at_ last_pos last_at, ∃ z : ℤ, a.pos = z) ∧
    (∀ a ∈ create_peak_fold pos at_ last_pos last_at, ∃ z : ℤ, a.pos = z) := by
  refine ⟨?_, ?_, ?_⟩
  · unfold default_peak
    simp only [List.cons.injEq, and_true, Action.mk.injEq, true_and]
    split_ifs with h1 h2
    · rw [max_eq_left h1.le, min_eq_left (by norm_num)]
    · rw [max_eq_right (le_of_not_lt h1), min_eq_right h2.le]
    · rw [max_eq_right (le_of_not_lt h1), min_eq_left (le_of_not_lt h2)]
  · unfold create_peak_bounce
    split_ifs <;> simp
  · unfold create_peak_fold
    split_ifs <;> simp

/-- Claim C4 witness: the in-range bounce action (2, round(50)) is emitted
and its position is an integer. -/
theorem c4_witness :
    Action.mk 2 ((jround 50 : ℤ) : ℚ) ∈ create_peak_bounce 50 2 10 0 ∧
    ∃ z : ℤ, (Action.mk 2 ((jround 50 : ℤ) : ℚ)).pos = z := by
  have hmem : Action.mk 2 ((jround 50 : ℤ) : ℚ) ∈ create_peak_bounce 50 2 10 0 := by
    norm_num [create_peak_bounce]
  exact ⟨hmem, (c4_crop_emits_unrounded_clamp 50 2 10 0).2.1 _ hmem⟩

/-- Claim C5 amended: Fold emits at most 3 actions.  With last_pos in
[0, 100] it emits the single pass-through action for an in-range pos and
otherwise exactly the folded pair (lastPos -+ travel, midTime) then
(lastPos, at); with last_pos out of bounds one correction action is
prepended, so that an out-of-bounds pos then gives exactly 3 actions. -/
theorem c5_fold_action_count (pos at_ last_pos last_at : ℚ) :
    (create_peak_fold pos at_ last_pos last_at).length ≤ 3 ∧
    (0 ≤ last_pos → last_pos ≤ 100 →
      create_peak_fold pos at_ last_pos last_at =
        (if pos < 0 then
          [⟨(last_at + at_) / 2, (jround (last_pos - |last_pos - pos| / 2) : ℚ)⟩,
           ⟨at_, (jround last_pos : ℚ)⟩]
         else if 100 < pos then
          [⟨(last_at + at_) / 2, (jround (last_pos + |last_pos - pos| / 2) : ℚ)⟩,
           ⟨at_, (jround last_pos : ℚ)⟩]
         else [⟨at_, (jround pos : ℚ)⟩])) ∧
    ((last_pos < 0 ∨ 100 < last_pos) → (pos < 0 ∨ 100 < pos) →
      (create_peak_fold pos at_ last_pos last_at).length = 3) := by
  refine ⟨?_, fun h1 h2 => ?_, fun h1 h2 => ?_⟩
  · unfold create_peak_fold
    split_ifs <;> simp
  · unfold create_peak_fold
    split_ifs <;> first | rfl | linarith
  · unfold create_peak_fold
    split_ifs <;>
      first
        | rfl
        | (exfalso; rcases h1 with h | h <;> rcases h2 with g | g <;> linarith)

/-- Claim C5 witness: the 3-action case instantiated at pos = -10,
last_pos = -50. -/
theorem c5_witness :
    ((-50 : ℚ) < 0 ∨ (100 : ℚ) < -50) ∧ ((-10 : ℚ) < 0 ∨ (100 : ℚ) < -10) ∧
    (create_peak_fold (-10) 2 (-50) 0).length = 3 :=
  ⟨Or.inl (by norm_num), Or.inl (by norm_num),
   (c5_fold_action_count (-10) 2 (-50) 0).2.2 (Or.inl (by norm_num))
     (Or.inl (by norm_num))⟩

theorem splitsLoop_true_length (frames : List ℚ) :
    ∀ (beats : List ℚ) (k : ℕ),
      (splitsLoop frames beats k true).length = consumedLoop frames beats := by
  induction frames with
  | nil => intro beats k; cases beats <;> simp [splitsLoop, consumedLoop]
  | cons f fs ih =>
    intro beats k
    cases beats with
    | nil => simp [splitsLoop, consumedLoop]
    | cons b bs =>
      by_cases h : b < f
      · simp [splitsLoop, consumedLoop, h, ih]
      · simp [splitsLoop, consumedLoop, h, ih]

theorem splitsLoop_false_length (frames : List ℚ) :
    ∀ (beats : List ℚ) (k : ℕ),
      (splitsLoop frames beats k false).length = consumedLoop frames beats - 1 := by
  induction frames with
  | nil => intro beats k; cases beats <;> simp [splitsLoop, consumedLoop]
  | cons f fs ih =>
    intro beats k
    cases beats with
    | nil => simp [splitsLoop, consumedLoop]
    | cons b bs =>
      by_cases h : b < f
      · simp [splitsLoop, consumedLoop, h, splitsLoop_true_length]
      · simp [splitsLoop, consumedLoop, h, ih]

theorem splitsLoop_mem_bounds (frames : List ℚ) :
    ∀ (beats : List ℚ) (k : ℕ) (flag : Bool) (x : ℕ),
      x ∈ splitsLoop frames beats k flag → k ≤ x ∧ x < k + frames.length := by
  induction frames with
  | nil => intro beats k flag x hx; cases beats <;> simp [splitsLoop] at hx
  | cons f fs ih =>
    intro beats k flag x hx
    cases beats with
    | nil => simp [splitsLoop] at hx
    | cons b bs =>
      simp only [splitsLoop] at hx
      by_cases h : b < f
      · rw [if_pos h] at hx
        rcases List.mem_append.mp hx with h1 | h1
        · cases flag with
          | true =>
            simp at h1
            simp [List.length_cons, h1]
          | false => simp at h1
        · have hb := ih bs (k + 1) true x h1
          simp only [List.length_cons]
          omega
      · rw [if_neg h] at hx
        have hb := ih (b :: bs) (k + 1) flag x hx
        simp only [List.length_cons]
        omega

theorem splitsLoop_pairwise (frames : List ℚ) :
    ∀ (beats : List ℚ) (k : ℕ) (flag : Bool),
      List.Pairwise (· < ·) (splitsLoop frames beats k flag) := by
  induction frames with
  | nil => intro beats k flag; cases beats <;> simp [splitsLoop]
  | cons f fs ih =>
    intro beats k flag
    cases beats with
    | nil => simp [splitsLoop]
    | cons b bs =>
      simp only [splitsLoop]
      by_cases h : b < f
      · rw [if_pos h]
        cases flag with
        | false => simpa using ih bs (k + 1) true
        | true =>
          rw [if_pos rfl, List.singleton_append]
          refine List.pairwise_cons.mpr ⟨fun y hy => ?_, ih bs (k + 1) true⟩
          have hb := splitsLoop_mem_bounds fs bs (k + 1) true y hy
          omega
      · rw [if_neg h]
        exact ih (b :: bs) (k + 1) flag

theorem segPairs_sum (vals : List ℚ) (len : ℕ) :
    ∀ (inner : List ℕ) (s : ℕ),
      (∀ x ∈ inner, s ≤ x ∧ x ≤ len) → List.Pairwise (· ≤ ·) inner → s ≤ len →
      ((List.zip (s :: inner) (inner ++ [len])).map
        (fun p => sumRange vals p.1 p.2)).sum = sumRange vals s len := by
  intro inner
  induction inner with
  | nil => intro s _ _ _; simp [List.zip]
  | cons b bs ih =>
    intro s hmem hpw hs
    have hsb : s ≤ b := (hmem b (List.mem_cons_self _ _)).1
    have hblen : b ≤ len := (hmem b (List.mem_cons_self _ _)).2
    have hpw' := List.pairwise_cons.mp hpw
    have step : sumRange vals s b + sumRange vals b len = sumRange vals s len := by
      unfold sumRange
      exact Finset.sum_Ico_consecutive _ hsb hblen
    have hzip : List.zip (s :: b :: bs) ((b :: bs) ++ [len]) =
        (s, b) :: List.zip (b :: bs) (bs ++ [len]) := rfl
    rw [hzip, List.map_cons, List.sum_cons,
      ih b (fun x hx => ⟨hpw'.1 x hx, (hmem x (List.mem_cons_of_mem _ hx)).2⟩)
        hpw'.2 hblen, step]

theorem sumRange_zero_length (vals : List ℚ) :
    sumRange vals 0 vals.length = vals.sum := by
  unfold sumRange
  rw [← Finset.range_eq_Ico]
  induction vals with
  | nil => simp
  | cons v vs ih =>
    rw [List.length_cons, Finset.sum_range_succ']
    simp only [List.getD_cons_succ, List.getD_cons_zero]
    rw [ih, List.sum_cons, add_comm]

/-- Claim C6 amended: in the segmentation loop a boundary opens per
consumed beat except the first (the source's last > 0 test), so the
boundary count is the consumed-beat count minus one; and since the
sentinel maps the final segment's end to the truncated array length, the
segments partition the value array: the per-segment sums add up to the
array total. -/
theorem c6_segmentation (frames beats vals : List ℚ)
    (h : vals.length = frames.length) :
    (splitsLoop frames beats 0 false).length = consumedLoop frames beats - 1 ∧
    (segmentSums vals frames beats).sum = vals.sum := by
  refine ⟨splitsLoop_false_length frames beats 0, ?_⟩
  unfold segmentSums segPairs
  rw [segPairs_sum vals vals.length (splitsLoop frames beats 0 false) 0 ?_ ?_
      (Nat.zero_le _), sumRange_zero_length]
  · intro x hx
    have hb := splitsLoop_mem_bounds frames beats 0 false x hx
    omega
  · exact (splitsLoop_pairwise frames beats 0 false).imp le_of_lt

/-- Claim C6 witness: the segmentation facts instantiated at frame-times
1/2, 3/2, 5/2, beat-times 1, 2 and values 1, 2, 3. -/
theorem c6_witness :
    ([1, 2, 3] : List ℚ).length = ([1/2, 3/2, 5/2] : List ℚ).length ∧
    ((splitsLoop [1/2, 3/2, 5/2] [1, 2] 0 false).length =
       consumedLoop [1/2, 3/2, 5/2] [1, 2] - 1 ∧
     (segmentSums [1, 2, 3] [1/2, 3/2, 5/2] [1, 2]).sum = ([1, 2, 3] : List ℚ).sum) :=
  ⟨rfl, c6_segmentation [1/2, 3/2, 5/2] [1, 2] [1, 2, 3] rfl⟩

end PyDancer
